import Mathlib

/-!
Verification of the `define_env` host-function dispatch and ABI-marshalling
engine from `substrate/frame/revive/proc-macro/src/lib.rs`.

The proc macro parses a module of host-function definitions (`EnvDef::try_from`,
`HostFn::try_from`) and generates (`expand_functions`, `expand_func_list`) the
runtime dispatcher `handle_ecall` together with the syscall name lists served by
`list_syscalls`.  We embed both levels:

* the build step (attribute processing, return-type validation, the
  `arg_decoder` parameter-type guard) as `Except`-valued functions, and
* the behaviour of the generated code (gas sync, base charge, symbol lookup,
  register/struct argument decoding, the read-only mutation guard, handler
  invocation) as executable functions over an explicit `Ctx` record.

Runtime functions additionally return a `List Event` trace recording, in order,
which primitive effects the generated code performs (gas sync in/out, the base
charge, register reads, guest-memory reads, handler execution).  The gas meter
and the guest-memory capability are external collaborators of this code: the
meter operations are universally quantified fallible oracles stored in `Ctx`,
and the byte-range read is modelled from the spec (`readIntoBuf`).
-/

/-- The primitive unsigned integer types that `arg_decoder` accepts as syscall
parameter types. -/
inductive PrimType
  | u8
  | u16
  | u32
  | u64
deriving DecidableEq, Repr

/-- Byte width of a parameter type; its natural alignment coincides with it. -/
def PrimType.width : PrimType → Nat
  | .u8 => 1
  | .u16 => 2
  | .u32 => 4
  | .u64 => 8

/-- A surface-syntax parameter type as written in the host-function signature.
`arg_decoder` only accepts the four primitive unsigned integer identifiers and
aborts the build for anything else (for example `bool`). -/
inductive SynType
  | u8
  | u16
  | u32
  | u64
  | bool
  | other (ident : String)
deriving DecidableEq, Repr

/-- The primitive type an allowed surface type denotes; `none` for the types
the `arg_decoder` guard rejects. -/
def SynType.toPrim : SynType → Option PrimType
  | .u8 => some .u8
  | .u16 => some .u16
  | .u32 => some .u32
  | .u64 => some .u64
  | _ => none

/-- Success types permitted in `Result<_, TrapReason>`, from `HostFnReturn`. -/
inductive HostFnReturn
  | unit
  | u32
  | u64
  | returnCode
deriving DecidableEq, Repr

/-- `HostFnReturn::map_output`: `Unit` produces no value, every other return
kind passes the (widened) value through. -/
def HostFnReturn.map_output : HostFnReturn → Nat → Option Nat
  | .unit, _ => none
  | _, v => some v

/-- The trap taxonomy of the dispatch layer (`TrapReason` / `Error`). -/
inductive Trap
  | invalidSyscall
  | outOfGas
  | stateChangeDenied
  | memoryAccessFailure
  | handlerError (code : Nat)
deriving DecidableEq, Repr

/-- Primitive effects performed by the generated `handle_ecall` body, recorded
in execution order. -/
inductive Event
  | syncIn
  | chargeBase
  | readRegs
  | lookup (symbol : String)
  | memRead (addr : Nat) (len : Nat)
  | handlerRun (name : String)
  | syncOut
deriving DecidableEq, Repr

/-- Recognizes the handler-execution event. -/
def Event.isHandlerRun : Event → Bool
  | .handlerRun _ => true
  | _ => false

/-- An attribute on a host-function item.  A `cfg` attribute carries an opaque
predicate evaluated by the build configuration; we record whether it holds
under the active configuration. -/
inductive Attr
  | stable
  | mutating
  | cfg (active : Bool)
  | doc
  | unknown (id : String)
deriving DecidableEq, Repr

/-- Recognizes `#[doc]` attributes, which `HostFn::try_from` retains away
before processing the remaining attributes. -/
def Attr.isDoc : Attr → Bool
  | .doc => true
  | _ => false

/-- The return type as written in the source: either the default (no return
type), a `Result<ok, err>` with the two argument identifiers, or some other
shape. -/
inductive RetSyn
  | default
  | result (okTy : String) (errTy : String)
  | other (ident : String)
deriving DecidableEq, Repr

/-- A host-function item as handed to the macro (`syn::ItemFn`): its name, its
attributes, whether its first two parameters are the required
`&mut self, memory: &mut M` pair, its return type, its remaining parameter
types in declaration order, and its body.  The body is the handler logic,
abstracted as a function from the decoded arguments to a result. -/
structure RawHostFn where
  name : String
  attrs : List Attr
  special_args_ok : Bool
  ret : RetSyn
  param_types : List SynType
  body : List Nat → Except Trap Nat

/-- A parsed host function (`HostFn`).  The source stores the whole
`syn::ItemFn`; we keep its payload (`param_types`, `body`).  `HostFn::try_from`
prepends the read-only guard statement to a `#[mutating]` function's body; we
record the flag and prepend the guard at invocation time (`callBody`). -/
structure HostFn where
  name : String
  is_stable : Bool
  mutating : Bool
  cfg : Option Bool
  returns : HostFnReturn
  param_types : List SynType
  body : List Nat → Except Trap Nat

/-- Parsed environment definition (`EnvDef`). -/
structure EnvDef where
  host_funcs : List HostFn

/-- Attribute processing loop of `HostFn::try_from`: each of `stable`,
`mutating` and `cfg` may appear at most once, any other attribute is an error.
The source pops attributes from the end of the list; the outcome does not
depend on the direction, so we walk left to right. -/
def processAttrs : List Attr → Bool → Bool → Option Bool →
    Except String (Bool × Bool × Option Bool)
  | [], is_stable, mutating, cfg => .ok (is_stable, mutating, cfg)
  | .stable :: rest, is_stable, mutating, cfg =>
    if is_stable then .error "stable can only be specified once"
    else processAttrs rest true mutating cfg
  | .mutating :: rest, is_stable, mutating, cfg =>
    if mutating then .error "mutating can only be specified once"
    else processAttrs rest is_stable true cfg
  | .cfg b :: rest, is_stable, mutating, cfg =>
    if cfg.isSome then .error "cfg can only be specified once"
    else processAttrs rest is_stable mutating (some b)
  | .doc :: rest, is_stable, mutating, cfg =>
    processAttrs rest is_stable mutating cfg
  | .unknown id :: _, _, _, _ =>
    .error ("Unsupported attribute " ++ id)

/-- The mapping from the first `Result` argument identifier to the return
kind; `none` for identifiers outside the four permitted ones. -/
def retKind : String → Option HostFnReturn
  | "()" => some .unit
  | "u32" => some .u32
  | "u64" => some .u64
  | "ReturnErrorCode" => some .returnCode
  | _ => none

/-- `HostFn::try_from`: processes attributes, checks the two special leading
parameters, and validates that the return type is `Result<ok, TrapReason>`
with `ok` one of `()`, `u32`, `u64`, `ReturnErrorCode`. -/
def HostFn.try_from (r : RawHostFn) : Except String HostFn :=
  match processAttrs (r.attrs.filter fun a => !a.isDoc) false false none with
  | .error e => .error e
  | .ok (is_stable, mutating, cfg) =>
    if !r.special_args_ok then
      .error "Every function must start with the two special parameters"
    else
      match r.ret with
      | RetSyn.result okTy errTy =>
        if errTy = "TrapReason" then
          match retKind okTy with
          | some returns =>
            .ok { name := r.name, is_stable := is_stable, mutating := mutating,
                  cfg := cfg, returns := returns, param_types := r.param_types,
                  body := r.body }
          | none => .error "Should return one of the allowed Result types"
        else .error "The error type must be TrapReason"
      | _ => .error "Should return one of the allowed Result types"

/-- Fail-fast collection of parsed host functions, as
`items.iter().map(HostFn::try_from).collect::<Result<Vec<_>, _>>()`. -/
def tryFromList : List RawHostFn → Except String (List HostFn)
  | [] => .ok []
  | r :: rest =>
    match HostFn.try_from r with
    | .error e => .error e
    | .ok f =>
      match tryFromList rest with
      | .error e => .error e
      | .ok fs => .ok (f :: fs)

/-- `EnvDef::try_from`: parses every function item of the module. -/
def EnvDef.try_from (items : List RawHostFn) : Except String EnvDef :=
  match tryFromList items with
  | .error e => .error e
  | .ok fs => .ok ⟨fs⟩

/-- The guard at the top of `arg_decoder`: every parameter type must be one of
`u8`, `u16`, `u32`, `u64`; any other type aborts the build.  On success it
yields the primitive types the generated decoder works on. -/
def checkParamTypes : List SynType → Except String (List PrimType)
  | [] => .ok []
  | ty :: rest =>
    match ty.toPrim with
    | none =>
      .error "Only primitive unsigned integers are allowed as arguments to syscalls"
    | some p =>
      match checkParamTypes rest with
      | .error e => .error e
      | .ok ps => .ok (p :: ps)

/-- One generated dispatch arm of the `handle_ecall` match: its syscall
symbol, whether its `#[cfg]` guard holds under the active build configuration
(an arm with a failing guard is absent from the compiled match), the mutating
flag, the validated parameter types, the return kind and the handler body. -/
structure Syscall where
  name : String
  cfg_active : Bool
  mutating : Bool
  param_types : List PrimType
  returns : HostFnReturn
  body : List Nat → Except Trap Nat

/-- Generates the dispatch arm for one parsed host function; fails exactly
when the `arg_decoder` parameter-type guard fires. -/
def expandOne (f : HostFn) : Except String Syscall :=
  match checkParamTypes f.param_types with
  | .error e => .error e
  | .ok ps =>
    .ok { name := f.name, cfg_active := f.cfg.getD true, mutating := f.mutating,
          param_types := ps, returns := f.returns, body := f.body }

/-- Arm generation over the whole definition, fail fast in order. -/
def expandList : List HostFn → Except String (List Syscall)
  | [] => .ok []
  | f :: rest =>
    match expandOne f with
    | .error e => .error e
    | .ok a =>
      match expandList rest with
      | .error e => .error e
      | .ok rest' => .ok (a :: rest')

/-- `expand_functions`: the dispatch arms of the generated `handle_ecall`.
The surrounding gas-synchronisation wrapper it also emits is embedded below as
`handle_ecall`. -/
def expand_functions (d : EnvDef) : Except String (List Syscall) :=
  expandList d.host_funcs

/-- `define_env` entry point: parse the module, then expand it. -/
def define_env (items : List RawHostFn) : Except String (List Syscall) :=
  match EnvDef.try_from items with
  | .error e => .error e
  | .ok d => expand_functions d

/-- `expand_func_list`: the syscall symbol list, filtered by stability only
(`include_unstable || f.is_stable`); the `cfg` attribute of a descriptor is
not consulted here. -/
def expand_func_list (d : EnvDef) (include_unstable : Bool) : List String :=
  (d.host_funcs.filter fun f => include_unstable || f.is_stable).map (·.name)

/-- The generated `list_syscalls` function: serves the all-syscalls list or
the stable-only list. -/
def list_syscalls (d : EnvDef) (include_unstable : Bool) : List String :=
  if include_unstable then expand_func_list d true else expand_func_list d false

/-- The per-invocation call context.  The gas meter is an external
collaborator, so its three operations appear as fallible oracles: the result
of `sync_from_executor(memory.gas())`, the result of
`charge_gas(RuntimeCosts::HostFn)`, and `sync_to_executor` as a function of
the remembered gas value.  `regs` holds the six input registers returned by
`read_input_regs`, `mem` the guest memory bytes, `read_only` the execution
context's read-only flag. -/
structure Ctx where
  syncInRes : Except Trap Nat
  chargeRes : Except Trap Unit
  syncOutFun : Nat → Except Trap Nat
  regs : List Nat
  mem : List Nat
  read_only : Bool

/-- Modelled from the spec: the guest-memory byte-range read capability
(`memory.read_into_buf`) used by the struct-decode path is not part of the
examined source; per the spec a read of `len` bytes at `addr` succeeds
exactly when the range lies inside guest memory and fails with
`MemoryAccessFailure` otherwise. -/
def readIntoBuf (mem : List Nat) (addr len : Nat) : Except Trap (List Nat) :=
  if addr + len ≤ mem.length then .ok ((mem.drop addr).take len)
  else .error .memoryAccessFailure

/-- Round `off` up to the next multiple of the alignment `a`. -/
def alignUp (off a : Nat) : Nat := (off + a - 1) / a * a

/-- Field offsets of the `#[repr(C)] struct Args`: each field is placed at
its type's natural alignment, after the previous field. -/
def offsetsAux : Nat → List PrimType → List Nat
  | _, [] => []
  | off, ty :: rest =>
    let o := alignUp off ty.width
    o :: offsetsAux (o + ty.width) rest

/-- Offsets of all fields, starting from the beginning of the record. -/
def fieldOffsets (tys : List PrimType) : List Nat := offsetsAux 0 tys

/-- End of the last field of the record. -/
def structEnd : Nat → List PrimType → Nat
  | off, [] => off
  | off, ty :: rest => structEnd (alignUp off ty.width + ty.width) rest

/-- The record's alignment: the maximal field alignment (at least 1). -/
def maxAlign (tys : List PrimType) : Nat :=
  tys.foldl (fun m ty => max m ty.width) 1

/-- `core::mem::size_of::<Args>()` under `#[repr(C)]` with natural
alignment: the end of the last field rounded up to the record alignment. -/
def sizeOfArgs (tys : List PrimType) : Nat :=
  alignUp (structEnd 0 tys) (maxAlign tys)

/-- Little-endian value of the first `w` bytes of a byte list. -/
def leValAux : List Nat → Nat → Nat
  | _, 0 => 0
  | bs, w + 1 => bs.headD 0 + 256 * leValAux bs.tail w

/-- Little-endian field value of width `w` at offset `off` of the record
buffer, as produced by reinterpreting the buffer as the record on the
little-endian target. -/
def leVal (bytes : List Nat) (off w : Nat) : Nat := leValAux (bytes.drop off) w

/-- Destructuring `let Args { .. } = ..`: extract every field, in declaration
order, from the record buffer. -/
def decodeStruct (tys : List PrimType) (bytes : List Nat) : List Nat :=
  ((fieldOffsets tys).zip tys).map fun p => leVal bytes p.1 p.2.width

/-- The register decode path: `let name_i = __a i __ as ty_i`, one register
per parameter in order; the `as` cast truncates the 64-bit register value to
the parameter width. -/
def decodeRegs : List PrimType → List Nat → List Nat
  | [], _ => []
  | ty :: rest, regs => regs.headD 0 % 2 ^ (8 * ty.width) :: decodeRegs rest regs.tail

/-- `ALLOWED_REGISTERS`: parameters beyond this count are passed through a
record in guest memory. -/
def ALLOWED_REGISTERS : Nat := 6

/-- The generated argument decode step of `arg_decoder`: more parameters than
registers reads `size_of::<Args>()` bytes from the address in the first
register and extracts the fields, otherwise each parameter is taken from its
register with no memory access.  The second component is the trace of memory
effects the step performs. -/
def decodeArgs (tys : List PrimType) (ctx : Ctx) :
    Except Trap (List Nat) × List Event :=
  if tys.length > ALLOWED_REGISTERS then
    let len := sizeOfArgs tys
    let addr := ctx.regs.getD 0 0
    match readIntoBuf ctx.mem addr len with
    | .error e => (.error e, [.memRead addr len])
    | .ok bytes => (.ok (decodeStruct tys bytes), [.memRead addr len])
  else
    (.ok (decodeRegs tys ctx.regs), [])

/-- Runs a syscall body.  `HostFn::try_from` prepends
`if self.ext().is_read_only() { return Err(StateChangeDenied) }` to a
`#[mutating]` function's body, so the guard executes before any original body
statement; a `handlerRun` event records that the original body executed. -/
def callBody (a : Syscall) (read_only : Bool) (args : List Nat) :
    Except Trap Nat × List Event :=
  if a.mutating && read_only then (.error .stateChangeDenied, [])
  else (a.body args, [.handlerRun a.name])

/-- Symbol lookup in the compiled match: arms whose `cfg` guard fails are
absent, and the first remaining arm with the requested symbol wins. -/
def findArm (arms : List Syscall) (symbol : String) : Option Syscall :=
  (arms.filter (·.cfg_active)).find? fun a => a.name == symbol

/-- The `match __syscall_symbol__ { .. }` of the generated `handle_ecall`:
an unmatched symbol traps with `InvalidSyscall`; a matched arm decodes its
arguments, runs the (guarded) body and maps the output. -/
def dispatch (arms : List Syscall) (ctx : Ctx) (symbol : String) :
    Except Trap (Option Nat) × List Event :=
  match findArm arms symbol with
  | none => (.error .invalidSyscall, [.lookup symbol])
  | some a =>
    match decodeArgs a.param_types ctx with
    | (.error e, ev) => (.error e, .lookup symbol :: ev)
    | (.ok args, ev) =>
      match callBody a ctx.read_only args with
      | (.error e, ev2) => (.error e, .lookup symbol :: (ev ++ ev2))
      | (.ok v, ev2) => (.ok (a.returns.map_output v), .lookup symbol :: (ev ++ ev2))

/-- The generated `handle_ecall` body: sync gas in (a failure returns
immediately), charge the fixed per-call overhead (a failure returns
immediately), read the input registers, run the symbol match in a closure so
that its trap does not skip the gas write-back, then sync gas out and return
the closure's result (a sync-out failure replaces it). -/
def handle_ecall (arms : List Syscall) (ctx : Ctx) (symbol : String) :
    Except Trap (Option Nat) × List Event :=
  match ctx.syncInRes with
  | .error e => (.error e, [.syncIn])
  | .ok gas_left_before =>
    match ctx.chargeRes with
    | .error e => (.error e, [.syncIn, .chargeBase])
    | .ok _ =>
      let r := dispatch arms ctx symbol
      let trace := .syncIn :: .chargeBase :: .readRegs :: (r.2 ++ [.syncOut])
      match ctx.syncOutFun gas_left_before with
      | .error e => (.error e, trace)
      | .ok _ => (r.1, trace)

theorem decodeArgs_events (tys : List PrimType) (ctx : Ctx) :
    (decodeArgs tys ctx).2 = [] ∨
    (decodeArgs tys ctx).2 = [Event.memRead (ctx.regs.getD 0 0) (sizeOfArgs tys)] := by
  unfold decodeArgs
  split
  · dsimp only
    split <;> simp
  · simp

theorem callBody_events (a : Syscall) (ro : Bool) (args : List Nat) :
    (callBody a ro args).2 = [] ∨ (callBody a ro args).2 = [Event.handlerRun a.name] := by
  unfold callBody
  split <;> simp

theorem dispatch_count_syncOut (arms : List Syscall) (ctx : Ctx) (symbol : String) :
    ((dispatch arms ctx symbol).2).count Event.syncOut = 0 := by
  unfold dispatch
  cases hf : findArm arms symbol with
  | none => simp
  | some a =>
    rcases hd : decodeArgs a.param_types ctx with ⟨res, ev⟩
    have hev := decodeArgs_events a.param_types ctx
    rw [hd] at hev
    cases res with
    | error e => rcases hev with h | h <;> simp_all [List.count_cons]
    | ok args =>
      rcases hc : callBody a ctx.read_only args with ⟨res2, ev2⟩
      have hev2 := callBody_events a ctx.read_only args
      rw [hc] at hev2
      cases res2 <;> rcases hev with h | h <;> rcases hev2 with h2 | h2 <;>
        simp_all [List.count_cons, List.count_append]

/-- C1 (amended): `sync_out` executes exactly once on every call attempt in
which both `sync_in` and the base-overhead charge succeed — including when
the attempt traps at symbol lookup, argument decode, the mutation guard or
handler execution — and executes zero times when `sync_in` or the base charge
fails. -/
theorem gas_sync_out_occurrence (arms : List Syscall) (ctx : Ctx) (symbol : String) :
    ((handle_ecall arms ctx symbol).2).count Event.syncOut =
      if ctx.syncInRes.isOk && ctx.chargeRes.isOk then 1 else 0 := by
  unfold handle_ecall
  cases hin : ctx.syncInRes with
  | error e => simp [Except.isOk, Except.toBool]
  | ok g =>
    cases hch : ctx.chargeRes with
    | error e => simp [Except.isOk, Except.toBool, List.count_cons]
    | ok u =>
      cases hout : ctx.syncOutFun g with
      | error e =>
        simp [hout, Except.isOk, Except.toBool, List.count_cons, List.count_append,
          dispatch_count_syncOut]
      | ok g2 =>
        simp [hout, Except.isOk, Except.toBool, List.count_cons, List.count_append,
          dispatch_count_syncOut]

/-- A context whose gas meter accepts the executor gas but rejects the
base-overhead charge. -/
def ctxChargeFail : Ctx :=
  { syncInRes := .ok 7, chargeRes := .error .outOfGas,
    syncOutFun := fun g => .ok g, regs := [0, 0, 0, 0, 0, 0], mem := [],
    read_only := false }

/-- C1 counterexample: an attempt whose `sync_in` succeeds but whose
base-overhead charge traps returns without ever executing `sync_out`,
contradicting the claim that only a `sync_in` failure aborts without
`sync_out`. -/
theorem gas_sync_out_skipped_on_base_charge_trap :
    ctxChargeFail.syncInRes.isOk = true ∧
    (handle_ecall [] ctxChargeFail "foo").1 = .error .outOfGas ∧
    ((handle_ecall [] ctxChargeFail "foo").2).count Event.syncOut = 0 := by
  refine ⟨rfl, rfl, rfl⟩

/-- C2: calling a symbol absent from the dispatch table charges the base
overhead exactly once, before the lookup, then fails with `InvalidSyscall`;
no guest memory is read and no handler runs (the full effect trace is
`sync_in, base charge, register read, lookup, sync_out`). -/
theorem invalid_syscall_behaviour (arms : List Syscall) (ctx : Ctx) (symbol : String)
    (g g' : Nat)
    (hfind : findArm arms symbol = none)
    (hin : ctx.syncInRes = .ok g)
    (hch : ctx.chargeRes = .ok ())
    (hout : ctx.syncOutFun g = .ok g') :
    handle_ecall arms ctx symbol =
      (.error .invalidSyscall,
        [.syncIn, .chargeBase, .readRegs, .lookup symbol, .syncOut]) := by
  simp [handle_ecall, dispatch, hin, hch, hfind, hout]

/-- A context whose gas oracles all succeed. -/
def ctxOk : Ctx :=
  { syncInRes := .ok 0, chargeRes := .ok (), syncOutFun := fun g => .ok g,
    regs := [0, 0, 0, 0, 0, 0], mem := [], read_only := false }

/-- C2 witness: the concrete empty table with an unknown symbol. -/
theorem invalid_syscall_behaviour_witness :
    handle_ecall [] ctxOk "unknown_symbol" =
      (.error .invalidSyscall,
        [.syncIn, .chargeBase, .readRegs, .lookup "unknown_symbol", .syncOut]) :=
  invalid_syscall_behaviour [] ctxOk "unknown_symbol" 0 0 rfl rfl rfl rfl

/-- A stable host function whose build guard fails under the active
configuration. -/
def gatedFn : HostFn :=
  { name := "gated", is_stable := true, mutating := false, cfg := some false,
    returns := .unit, param_types := [], body := fun _ => .ok 0 }

/-- The dispatch arm generated for `gatedFn`: absent from the compiled match
because its guard fails. -/
def gatedArm : Syscall :=
  { name := "gated", cfg_active := false, mutating := false, param_types := [],
    returns := .unit, body := fun _ => .ok 0 }

/-- C3 counterexample: a descriptor excluded by its build guard still appears
in both the `all` and the `stable_only` list, because `expand_func_list`
filters by stability only and never consults the `cfg` attribute. -/
theorem func_list_ignores_build_guard :
    gatedFn.cfg = some false ∧
    expand_func_list ⟨[gatedFn]⟩ true = ["gated"] ∧
    expand_func_list ⟨[gatedFn]⟩ false = ["gated"] :=
  ⟨rfl, rfl, rfl⟩

/-- C3 (amended): the symbol lists are derived from the registry filtered by
stability only, ignoring build guards, so a build-guard-excluded descriptor
still appears in `all` (and in `stable_only` when stable) even though its
symbol, absent from the compiled dispatch match, traps `InvalidSyscall`. -/
theorem func_list_stability_filter_only (d : EnvDef) (f : HostFn)
    (arms : List Syscall) (ctx : Ctx)
    (hmem : f ∈ d.host_funcs) (hstable : f.is_stable = true)
    (hnone : findArm arms f.name = none) :
    f.name ∈ expand_func_list d true ∧
    f.name ∈ expand_func_list d false ∧
    (dispatch arms ctx f.name).1 = .error .invalidSyscall := by
  refine ⟨?_, ?_, ?_⟩
  · exact List.mem_map_of_mem _ (List.mem_filter.mpr ⟨hmem, by simp⟩)
  · exact List.mem_map_of_mem _ (List.mem_filter.mpr ⟨hmem, by simp [hstable]⟩)
  · simp [dispatch, hnone]

/-- C3 witness: the gated descriptor appears in both lists of its own table
yet its symbol is not dispatchable. -/
theorem func_list_stability_filter_only_witness :
    expand_functions ⟨[gatedFn]⟩ = .ok [gatedArm] ∧
    ("gated" ∈ expand_func_list ⟨[gatedFn]⟩ true ∧
     "gated" ∈ expand_func_list ⟨[gatedFn]⟩ false ∧
     (dispatch [gatedArm] ctxOk "gated").1 = .error .invalidSyscall) :=
  ⟨rfl, func_list_stability_filter_only ⟨[gatedFn]⟩ gatedFn [gatedArm] ctxOk
    (by simp) rfl rfl⟩

/-- An unstable host function with no build guard. -/
def unstableFn : HostFn :=
  { name := "probe", is_stable := false, mutating := false, cfg := none,
    returns := .u32, param_types := [], body := fun _ => .ok 1 }

/-- C10: `stable_only` is a subsequence of `all` in the same relative order,
and appending one additional unstable, build-included descriptor lengthens
`all` by exactly one while leaving `stable_only` unchanged. -/
theorem stable_list_sublist (d : EnvDef) (f : HostFn)
    (hunstable : f.is_stable = false) (_hincl : f.cfg = none) :
    List.Sublist (expand_func_list d false) (expand_func_list d true) ∧
    (expand_func_list ⟨d.host_funcs ++ [f]⟩ true).length =
      (expand_func_list d true).length + 1 ∧
    expand_func_list ⟨d.host_funcs ++ [f]⟩ false = expand_func_list d false := by
  have h1 : ∀ (l : List HostFn), (l.filter fun f => true || f.is_stable) = l := by
    intro l
    simp
  refine ⟨?_, ?_, ?_⟩
  · unfold expand_func_list
    rw [h1]
    exact List.Sublist.map _ (List.filter_sublist _)
  · unfold expand_func_list
    rw [h1, h1]
    simp
  · unfold expand_func_list
    simp [List.filter_append, hunstable]

/-- C10 witness: a one-descriptor stable table extended by one unstable
descriptor. -/
theorem stable_list_sublist_witness :
    List.Sublist (expand_func_list ⟨[gatedFn]⟩ false) (expand_func_list ⟨[gatedFn]⟩ true) ∧
    (expand_func_list ⟨[gatedFn, unstableFn]⟩ true).length =
      (expand_func_list ⟨[gatedFn]⟩ true).length + 1 ∧
    expand_func_list ⟨[gatedFn, unstableFn]⟩ false = expand_func_list ⟨[gatedFn]⟩ false :=
  stable_list_sublist ⟨[gatedFn]⟩ unstableFn rfl rfl

/-- Whether one descriptor passes its own validation: attribute processing,
the special leading parameters, the return type, and the `arg_decoder`
parameter-type guard.  No part of the build looks at more than one descriptor
at a time. -/
def itemOk (r : RawHostFn) : Bool :=
  match HostFn.try_from r with
  | .error _ => false
  | .ok f => (checkParamTypes f.param_types).isOk

theorem define_env_eq (items : List RawHostFn) :
    define_env items =
      match tryFromList items with
      | .error e => .error e
      | .ok fs => expandList fs := by
  unfold define_env EnvDef.try_from
  cases tryFromList items <;> rfl

theorem define_env_isOk (items : List RawHostFn) :
    (define_env items).isOk = items.all itemOk := by
  induction items with
  | nil => rfl
  | cons r rest ih =>
    rw [define_env_eq] at ih ⊢
    simp only [List.all_cons]
    unfold tryFromList
    cases h1 : HostFn.try_from r with
    | error e => simp [itemOk, h1, Except.isOk, Except.toBool]
    | ok f =>
      cases h2 : tryFromList rest with
      | error e =>
        simp only [h2] at ih
        simp [itemOk, h1, Except.isOk, Except.toBool, ← ih]
      | ok fs =>
        simp only [h2] at ih
        unfold expandList expandOne
        cases h3 : checkParamTypes f.param_types with
        | error e => simp [itemOk, h1, h3, Except.isOk, Except.toBool]
        | ok ps =>
          cases h4 : expandList fs with
          | error e =>
            rw [h4] at ih
            simp [itemOk, h1, h3, h4, Except.isOk, Except.toBool, ← ih]
          | ok arms =>
            rw [h4] at ih
            simp [itemOk, h1, h3, h4, Except.isOk, Except.toBool, ← ih]

/-- A well-formed host-function item; two copies of it share the symbol. -/
def rawDup : RawHostFn :=
  { name := "dup", attrs := [], special_args_ok := true,
    ret := .result "()" "TrapReason", param_types := [.u32],
    body := fun _ => .ok 0 }

/-- C4 counterexample: a descriptor set in which two active descriptors share
the same symbol builds successfully — registry construction does not fail —
and the built table contains both arms under the symbol. -/
theorem duplicate_symbols_build_ok :
    (define_env [rawDup, rawDup]).isOk = true ∧
    Except.map (fun arms => arms.map Syscall.name) (define_env [rawDup, rawDup]) =
      .ok ["dup", "dup"] :=
  ⟨rfl, rfl⟩

/-- C4 (amended): registry construction performs no symbol-collision check —
it succeeds exactly when every descriptor passes its own per-item validation —
so a set with two active descriptors sharing a symbol (for example a
duplicated valid item) still builds. -/
theorem registry_no_collision_check (items : List RawHostFn) (r : RawHostFn)
    (h : itemOk r = true) :
    (define_env items).isOk = items.all itemOk ∧
    (define_env [r, r]).isOk = true := by
  refine ⟨define_env_isOk items, ?_⟩
  simp [define_env_isOk, List.all_cons, h]

/-- C4 witness: the duplicated valid descriptor. -/
theorem registry_no_collision_check_witness :
    (define_env [rawDup, rawDup]).isOk = ([rawDup, rawDup]).all itemOk ∧
    (define_env [rawDup, rawDup]).isOk = true :=
  registry_no_collision_check [rawDup, rawDup] rawDup rfl

theorem getD_tail (l : List Nat) (i : Nat) (d : Nat) :
    l.getD (i + 1) d = l.tail.getD i d := by
  cases l <;> simp [List.getD]

theorem decodeRegs_getD (tys : List PrimType) (regs : List Nat) (i : Nat)
    (hi : i < tys.length) :
    (decodeRegs tys regs).getD i 0 =
      regs.getD i 0 % 2 ^ (8 * (tys.getD i .u8).width) := by
  induction tys generalizing regs i with
  | nil => simp at hi
  | cons ty rest ih =>
    cases i with
    | zero => cases regs <;> simp [decodeRegs, List.getD]
    | succ i =>
      simp only [decodeRegs, List.getD_cons_succ]
      rw [getD_tail]
      exact ih _ _ (by simpa using hi)

/-- C7: with at most six parameters, argument `i` is register `i` truncated
to the width of `param_types[i]`; the decode issues no guest-memory read and
always succeeds. -/
theorem register_decode (tys : List PrimType) (ctx : Ctx) (i : Nat)
    (h : tys.length ≤ 6) (hi : i < tys.length) :
    decodeArgs tys ctx = (.ok (decodeRegs tys ctx.regs), []) ∧
    (decodeRegs tys ctx.regs).getD i 0 =
      ctx.regs.getD i 0 % 2 ^ (8 * (tys.getD i .u8).width) := by
  refine ⟨?_, decodeRegs_getD tys ctx.regs i hi⟩
  have h6 : ¬tys.length > ALLOWED_REGISTERS := by
    simp only [ALLOWED_REGISTERS]
    omega
  simp [decodeArgs, h6]

/-- The context of the spec scenario foo(key_ptr, value_ptr, value_len) with
registers (10, 20, 5, 0, 0, 0). -/
def ctxFoo : Ctx :=
  { syncInRes := .ok 0, chargeRes := .ok (), syncOutFun := fun g => .ok g,
    regs := [10, 20, 5, 0, 0, 0], mem := [], read_only := false }

/-- C7 witness: the three-parameter scenario decodes to (10, 20, 5) with no
memory effect. -/
theorem register_decode_witness :
    decodeArgs [.u32, .u32, .u32] ctxFoo = (.ok [10, 20, 5], []) ∧
    ([10, 20, 5] : List Nat).getD 0 0 = 10 % 2 ^ (8 * 4) :=
  register_decode [.u32, .u32, .u32] ctxFoo 0 (by decide) (by decide)

theorem decodeArgs_no_handler (tys : List PrimType) (ctx : Ctx) (e : Event)
    (he : e ∈ (decodeArgs tys ctx).2) : e.isHandlerRun = false := by
  rcases decodeArgs_events tys ctx with h | h <;> rw [h] at he
  · simp at he
  · simp at he
    subst he
    rfl

/-- C9: a mutating descriptor called under a read-only context traps with
`StateChangeDenied` and the handler body never runs: the guard fires before
any body statement, so the trace carries no handler event. -/
theorem mutation_guard (arms : List Syscall) (ctx : Ctx) (symbol : String)
    (a : Syscall) (args : List Nat) (ev : List Event)
    (hfind : findArm arms symbol = some a)
    (hmut : a.mutating = true) (hro : ctx.read_only = true)
    (hdec : decodeArgs a.param_types ctx = (.ok args, ev)) :
    dispatch arms ctx symbol = (.error .stateChangeDenied, .lookup symbol :: ev) ∧
    ((dispatch arms ctx symbol).2.all fun e => !e.isHandlerRun) = true := by
  have hcall : callBody a ctx.read_only args = (.error .stateChangeDenied, []) := by
    unfold callBody
    rw [hmut, hro]
    rfl
  have hd : dispatch arms ctx symbol =
      (.error .stateChangeDenied, .lookup symbol :: ev) := by
    simp [dispatch, hfind, hdec, hcall]
  refine ⟨hd, ?_⟩
  rw [hd]
  have hev := decodeArgs_events a.param_types ctx
  rw [hdec] at hev
  rcases hev with h | h
  · have h' : ev = [] := h
    rw [h']
    rfl
  · have h' : ev = [Event.memRead (ctx.regs.getD 0 0) (sizeOfArgs a.param_types)] := h
    rw [h']
    rfl

/-- A mutating syscall arm with no parameters. -/
def mutArm : Syscall :=
  { name := "mutate", cfg_active := true, mutating := true, param_types := [],
    returns := .unit, body := fun _ => .ok 0 }

/-- A context whose read-only flag is set. -/
def ctxReadOnly : Ctx :=
  { syncInRes := .ok 0, chargeRes := .ok (), syncOutFun := fun g => .ok g,
    regs := [0, 0, 0, 0, 0, 0], mem := [], read_only := true }

/-- C9 witness: the mutating arm under a read-only context. -/
theorem mutation_guard_witness :
    dispatch [mutArm] ctxReadOnly "mutate" =
      (.error .stateChangeDenied, [.lookup "mutate"]) ∧
    ((dispatch [mutArm] ctxReadOnly "mutate").2.all fun e => !e.isHandlerRun) = true :=
  mutation_guard [mutArm] ctxReadOnly "mutate" mutArm [] [] rfl rfl rfl rfl

/-- C6: with more than six parameters, a failing guest-memory read of the
packed record makes the decode step trap with `MemoryAccessFailure`; the
handler is never invoked, so no partial record reaches it. -/
theorem struct_decode_oob (arms : List Syscall) (ctx : Ctx) (symbol : String)
    (a : Syscall)
    (hfind : findArm arms symbol = some a)
    (h6 : a.param_types.length > 6)
    (hoob : ctx.mem.length < ctx.regs.getD 0 0 + sizeOfArgs a.param_types) :
    dispatch arms ctx symbol =
      (.error .memoryAccessFailure,
        [.lookup symbol, .memRead (ctx.regs.getD 0 0) (sizeOfArgs a.param_types)]) ∧
    ((dispatch arms ctx symbol).2.all fun e => !e.isHandlerRun) = true := by
  have hgt : a.param_types.length > ALLOWED_REGISTERS := by
    simpa [ALLOWED_REGISTERS] using h6
  have hr : readIntoBuf ctx.mem (ctx.regs.getD 0 0) (sizeOfArgs a.param_types) =
      .error .memoryAccessFailure := by
    unfold readIntoBuf
    rw [if_neg]
    omega
  have hdec : decodeArgs a.param_types ctx =
      (.error .memoryAccessFailure,
        [.memRead (ctx.regs.getD 0 0) (sizeOfArgs a.param_types)]) := by
    unfold decodeArgs
    rw [if_pos hgt]
    dsimp only
    rw [hr]
  have hd : dispatch arms ctx symbol =
      (.error .memoryAccessFailure,
        [.lookup symbol, .memRead (ctx.regs.getD 0 0) (sizeOfArgs a.param_types)]) := by
    simp [dispatch, hfind, hdec]
  refine ⟨hd, ?_⟩
  rw [hd]
  rfl

/-- A seven-parameter syscall arm, as the spec scenario bar. -/
def arm7 : Syscall :=
  { name := "bar", cfg_active := true, mutating := false,
    param_types := [.u32, .u32, .u32, .u32, .u32, .u32, .u32],
    returns := .unit, body := fun _ => .ok 0 }

/-- C6 witness: the seven-u32 arm with empty guest memory. -/
theorem struct_decode_oob_witness :
    dispatch [arm7] ctxOk "bar" =
      (.error .memoryAccessFailure, [.lookup "bar", .memRead 0 28]) ∧
    ((dispatch [arm7] ctxOk "bar").2.all fun e => !e.isHandlerRun) = true :=
  struct_decode_oob [arm7] ctxOk "bar" arm7 rfl (by decide) (by decide)

theorem checkParamTypes_err (tys : List SynType) (ty : SynType)
    (hty : ty ∈ tys) (hbad : ty.toPrim = none) :
    (checkParamTypes tys).isOk = false := by
  induction tys with
  | nil => simp at hty
  | cons t rest ih =>
    simp at hty
    unfold checkParamTypes
    rcases hty with h | h
    · subst h
      rw [hbad]
      rfl
    · cases ht : t.toPrim with
      | none => rfl
      | some p =>
        have hrec := ih h
        cases hc : checkParamTypes rest with
        | error e => rfl
        | ok ps =>
          rw [hc] at hrec
          simp [Except.isOk, Except.toBool] at hrec

theorem try_from_param_types (r : RawHostFn) (f : HostFn)
    (h : HostFn.try_from r = .ok f) : f.param_types = r.param_types := by
  unfold HostFn.try_from at h
  repeat' split at h
  all_goals simp_all
  rw [← h]

/-- C8: any descriptor whose parameter list contains a type other than the
four fixed-width unsigned integers (for example a boolean, whose bit patterns
are not all legal) makes `define_env` fail at build time, so no dispatch
table exists and no call can ever be dispatched. -/
theorem disallowed_param_type (items : List RawHostFn) (r : RawHostFn)
    (ty : SynType) (hr : r ∈ items) (hty : ty ∈ r.param_types)
    (hbad : ty.toPrim = none) :
    (define_env items).isOk = false := by
  rw [define_env_isOk]
  have hitem : itemOk r = false := by
    unfold itemOk
    cases h : HostFn.try_from r with
    | error e => rfl
    | ok f =>
      exact checkParamTypes_err f.param_types ty
        (by rw [try_from_param_types r f h]; exact hty) hbad
  cases hall : items.all itemOk with
  | false => rfl
  | true =>
    have h1 := (List.all_eq_true.mp hall) r hr
    rw [hitem] at h1
    simp at h1

/-- A host-function item with a boolean parameter. -/
def rawBoolFn : RawHostFn :=
  { name := "flag", attrs := [], special_args_ok := true,
    ret := .result "()" "TrapReason", param_types := [.bool],
    body := fun _ => .ok 0 }

/-- C8 witness: the boolean-parameter item fails the build. -/
theorem disallowed_param_type_witness :
    (define_env [rawBoolFn]).isOk = false :=
  disallowed_param_type [rawBoolFn] rawBoolFn .bool (by simp) (by simp [rawBoolFn]) rfl

/-- Little-endian byte encoding of a value at a given width. -/
def leBytes : Nat → Nat → List Nat
  | 0, _ => []
  | w + 1, v => v % 256 :: leBytes w (v / 256)

/-- Concatenated little-endian encodings of 32-bit values: the guest-memory
image of the packed record of an all-u32 parameter list. -/
def encodeU32s : List Nat → List Nat
  | [] => []
  | v :: rest => leBytes 4 v ++ encodeU32s rest

theorem leBytes_length (w v : Nat) : (leBytes w v).length = w := by
  induction w generalizing v with
  | zero => rfl
  | succ w ih => simp [leBytes, ih]

theorem encodeU32s_length (vals : List Nat) :
    (encodeU32s vals).length = 4 * vals.length := by
  induction vals with
  | nil => rfl
  | cons v rest ih =>
    simp [encodeU32s, leBytes_length, ih]
    omega

theorem leValAux_leBytes (w v : Nat) (rest : List Nat) :
    leValAux (leBytes w v ++ rest) w = v % 256 ^ w := by
  induction w generalizing v with
  | zero =>
    simp [leValAux, leBytes, Nat.mod_one]
  | succ w ih =>
    simp only [leBytes, List.cons_append, leValAux, List.headD_cons, List.tail_cons]
    rw [ih, pow_succ, mul_comm (256 ^ w) 256, Nat.mod_mul]

theorem alignUp_mul (k : Nat) : alignUp (4 * k) 4 = 4 * k := by
  unfold alignUp
  omega

theorem decode_encode_aux (vals : List Nat) (k : Nat) (B : List Nat)
    (hB : B.length = 4 * k) (hv : ∀ v ∈ vals, v < 2 ^ 32) :
    ((offsetsAux (4 * k) (List.replicate vals.length PrimType.u32)).zip
        (List.replicate vals.length PrimType.u32)).map
      (fun p => leVal (B ++ encodeU32s vals) p.1 p.2.width) = vals := by
  induction vals generalizing k B with
  | nil => simp [offsetsAux]
  | cons v rest ih =>
    have hv0 : v < 2 ^ 32 := hv v (by simp)
    have hvr : ∀ x ∈ rest, x < 2 ^ 32 := fun x hx => hv x (by simp [hx])
    simp only [List.length_cons, List.replicate_succ, offsetsAux, PrimType.width]
    rw [alignUp_mul]
    simp only [List.zip_cons_cons, List.map_cons, encodeU32s]
    refine List.cons_eq_cons.mpr ⟨?_, ?_⟩
    · show leValAux ((B ++ (leBytes 4 v ++ encodeU32s rest)).drop (4 * k)) 4 = v
      rw [← hB, List.drop_left]
      rw [leValAux_leBytes]
      have h44 : (256 : Nat) ^ 4 = 2 ^ 32 := by norm_num
      rw [h44]
      exact Nat.mod_eq_of_lt hv0
    · have hstep : 4 * k + 4 = 4 * (k + 1) := by omega
      have hassoc : B ++ (leBytes 4 v ++ encodeU32s rest) =
          (B ++ leBytes 4 v) ++ encodeU32s rest := (List.append_assoc B _ _).symm
      rw [hstep, hassoc]
      exact ih (k + 1) (B ++ leBytes 4 v)
        (by simp [leBytes_length, hB]; omega) hvr

theorem decodeStruct_encodeU32s (vals : List Nat) (hv : ∀ v ∈ vals, v < 2 ^ 32) :
    decodeStruct (List.replicate vals.length PrimType.u32) (encodeU32s vals) = vals := by
  have h := decode_encode_aux vals 0 [] (by simp) hv
  simpa [decodeStruct, fieldOffsets, leVal] using h

theorem structEnd_u32 (k n : Nat) :
    structEnd (4 * k) (List.replicate n PrimType.u32) = 4 * (k + n) := by
  induction n generalizing k with
  | zero => simp [structEnd]
  | succ n ih =>
    simp only [List.replicate_succ, structEnd, PrimType.width]
    rw [alignUp_mul]
    have hstep : 4 * k + 4 = 4 * (k + 1) := by omega
    rw [hstep, ih]
    ring

theorem maxAlign_aux (m : Nat) :
    List.foldl (fun m ty => max m ty.width) 4 (List.replicate m PrimType.u32) = 4 := by
  induction m with
  | zero => rfl
  | succ m ih => simpa [List.replicate_succ] using ih

theorem maxAlign_u32 (n : Nat) : maxAlign (List.replicate (n + 1) PrimType.u32) = 4 := by
  unfold maxAlign
  simpa [List.replicate_succ] using maxAlign_aux n

theorem sizeOfArgs_u32 (n : Nat) (hn : 0 < n) :
    sizeOfArgs (List.replicate n PrimType.u32) = 4 * n := by
  unfold sizeOfArgs
  obtain ⟨m, rfl⟩ : ∃ m, n = m + 1 := ⟨n - 1, by omega⟩
  rw [maxAlign_u32]
  have h := structEnd_u32 0 (m + 1)
  norm_num at h
  rw [h]
  exact alignUp_mul (m + 1)

theorem width_pos (ty : PrimType) : 0 < ty.width := by
  cases ty <;> simp [PrimType.width]

theorem alignUp_width_ge (off : Nat) (ty : PrimType) : off ≤ alignUp off ty.width := by
  cases ty <;> (simp only [PrimType.width]; unfold alignUp; omega)

theorem offsetsAux_chain (tys : List PrimType) (off : Nat) :
    List.Chain' (fun a b => a < b) (offsetsAux off tys) ∧
    ∀ x ∈ offsetsAux off tys, off ≤ x := by
  induction tys generalizing off with
  | nil => simp [offsetsAux]
  | cons ty rest ih =>
    simp only [offsetsAux]
    obtain ⟨hc, hge⟩ := ih (alignUp off ty.width + ty.width)
    constructor
    · refine List.chain'_cons'.mpr ⟨?_, hc⟩
      intro y hy
      have h1 := hge y (List.mem_of_mem_head? hy)
      have h2 := width_pos ty
      omega
    · intro x hx
      rcases List.mem_cons.mp hx with h | h
      · subst h
        exact alignUp_width_ge off ty
      · have h1 := hge x h
        have h2 := alignUp_width_ge off ty
        have h3 := width_pos ty
        omega

theorem drop_replicate_append (n : Nat) (x : Nat) (l : List Nat) :
    (List.replicate n x ++ l).drop n = l := by
  simp

theorem decodeArgs_trace_gt6 (tys : List PrimType) (ctx : Ctx)
    (h : tys.length > 6) :
    (decodeArgs tys ctx).2 = [Event.memRead (ctx.regs.getD 0 0) (sizeOfArgs tys)] := by
  have hgt : tys.length > ALLOWED_REGISTERS := by
    simpa [ALLOWED_REGISTERS] using h
  unfold decodeArgs
  rw [if_pos hgt]
  dsimp only
  split <;> rfl

/-- C5: with more than six parameters the decoder performs exactly one
guest-memory read, of `size_of::<Args>()` bytes, at the address held in the
first register; the record's fields sit at strictly increasing offsets in
declaration order; for an all-u32 parameter list the record size is the sum
of the field widths (4 bytes each, so 28 bytes for seven parameters), and
decoding the little-endian record image reconstructs the values in
declaration order. -/
theorem struct_decode (tys : List PrimType) (ctx : Ctx) (vals : List Nat) (n : Nat)
    (htys : tys.length > 6) (hn : 6 < n) (hlen : vals.length = n)
    (hvals : ∀ v ∈ vals, v < 2 ^ 32)
    (hmem : ctx.mem = List.replicate (ctx.regs.getD 0 0) 0 ++ encodeU32s vals) :
    (decodeArgs tys ctx).2 = [.memRead (ctx.regs.getD 0 0) (sizeOfArgs tys)] ∧
    List.Chain' (fun a b => a < b) (fieldOffsets tys) ∧
    sizeOfArgs (List.replicate n PrimType.u32) = 4 * n ∧
    decodeArgs (List.replicate n PrimType.u32) ctx =
      (.ok vals, [.memRead (ctx.regs.getD 0 0) (4 * n)]) := by
  subst hlen
  have hsz : sizeOfArgs (List.replicate vals.length PrimType.u32) = 4 * vals.length :=
    sizeOfArgs_u32 vals.length (by omega)
  refine ⟨decodeArgs_trace_gt6 tys ctx htys, (offsetsAux_chain tys 0).1, hsz, ?_⟩
  have hgt : (List.replicate vals.length PrimType.u32).length > ALLOWED_REGISTERS := by
    simp [ALLOWED_REGISTERS]
    omega
  have hread : readIntoBuf ctx.mem (ctx.regs.getD 0 0)
      (sizeOfArgs (List.replicate vals.length PrimType.u32)) =
      .ok (encodeU32s vals) := by
    unfold readIntoBuf
    rw [hsz, hmem]
    rw [if_pos (by simp [encodeU32s_length])]
    rw [drop_replicate_append]
    have henc : (encodeU32s vals).length = 4 * vals.length := encodeU32s_length vals
    rw [← henc, List.take_length]
  unfold decodeArgs
  rw [if_pos hgt]
  dsimp only
  rw [hread]
  dsimp only
  rw [decodeStruct_encodeU32s vals hvals, hsz]

/-- The seven 32-bit values of the spec scenario bar. -/
def vals7 : List Nat := [1, 2, 3, 4, 5, 6, 7]

/-- Seven u32 parameter types. -/
def tys7 : List PrimType := [.u32, .u32, .u32, .u32, .u32, .u32, .u32]

/-- The context of the spec scenario bar: the record image lives at guest
address 4096, held in the first register. -/
def ctxBar : Ctx :=
  { syncInRes := .ok 0, chargeRes := .ok (), syncOutFun := fun g => .ok g,
    regs := [4096, 0, 0, 0, 0, 0],
    mem := List.replicate 4096 0 ++ encodeU32s vals7, read_only := false }

/-- C5 witness: seven u32 values at address 0x1000 are read as one 28-byte
record and reconstructed in declared order. -/
theorem struct_decode_witness :
    (decodeArgs tys7 ctxBar).2 = [.memRead 4096 (sizeOfArgs tys7)] ∧
    List.Chain' (fun a b => a < b) (fieldOffsets tys7) ∧
    sizeOfArgs (List.replicate 7 PrimType.u32) = 4 * 7 ∧
    decodeArgs (List.replicate 7 PrimType.u32) ctxBar =
      (.ok vals7, [.memRead 4096 (4 * 7)]) :=
  struct_decode tys7 ctxBar vals7 7 (by decide) (by decide) rfl (by decide) rfl
